import Mathlib

/- Shallow embedding of the ArcForge scraping pipeline: the GenericScraper
class of tools/scraper/generic_scraper.py, the main entry point and saver
selection of main.py, and the file save strategies of
tools/core/save_strategy.py.  HTML parsing and the network are modelled as
oracles: a parsed page maps each CSS selector string to the ordered list of
tags it matches, and a fetch function maps a URL to an optional parsed page
(none models a failed request, mirroring request_page returning None). -/

/-! ## Python string and list builtins -/

/-- Python substring test, `pat in s`. -/
def strContains (s pat : String) : Bool := decide (pat.data <:+: s.data)

/-- Python prefix test, `s.startswith(pre)`. -/
def strStartsWith (s pre : String) : Bool := decide (pre.data <+: s.data)

/-- Python `s.rstrip(c)` for a single strip character: removes every
trailing occurrence of `c`. -/
def rstripChar (s : String) (c : Char) : String :=
  String.mk (((s.data.reverse).dropWhile (fun x => x = c)).reverse)

/-- Python exceptions that the embedded code can raise. -/
inductive PyError where
  | valueError (msg : String)
  | keyError (key : String)
  | attributeError (msg : String)
deriving DecidableEq, Repr

/-- Python `min` applied to a list of lengths: raises `ValueError` on an
empty argument, otherwise folds the binary minimum over the elements. -/
def listMin : List Nat → Except PyError Nat
  | [] => .error (.valueError "min() arg is an empty sequence")
  | x :: xs => .ok (xs.foldl Nat.min x)

/-- Python `range(a, b)` over integers, as the list `[a, a+1, ..., b-1]`
(empty when `b ≤ a`). -/
def intRange (a b : Int) : List Int :=
  (List.range (b - a).toNat).map (fun (i : Nat) => a + (i : Int))

/-! ## Parsed documents (BeautifulSoup model) -/

/-- A parsed HTML node: its attribute list and its text content. -/
structure Tag where
  attrs : List (String × String)
  text : String
deriving DecidableEq, Repr

/-- BeautifulSoup `tag.get(a)`: the attribute value, or none when the
attribute is absent (no exception). -/
def Tag.get (el : Tag) (a : String) : Option String :=
  (el.attrs.find? (fun kv => kv.1 == a)).map (fun kv => kv.2)

/-- Whitespace stripping from both ends, as Python `str.strip`. -/
def strTrim (s : String) : String :=
  String.mk (((s.data.dropWhile Char.isWhitespace).reverse.dropWhile Char.isWhitespace).reverse)

/-- BeautifulSoup `tag.get_text` with stripping enabled: the text content
with surrounding whitespace removed. -/
def Tag.getText (el : Tag) : String := strTrim el.text

/-- A parsed page, modelled as its CSS-selection oracle: for every selector
string, the ordered list of matching tags. -/
def Soup : Type := String → List Tag

/-- BeautifulSoup `soup.select(selector)`: all matches, in document order. -/
def Soup.select (soup : Soup) (selector : String) : List Tag := soup selector

/-- BeautifulSoup `soup.select_one(selector)`: the first match or none. -/
def Soup.select_one (soup : Soup) (selector : String) : Option Tag :=
  (soup.select selector).head?

/-! ## GenericScraper state -/

/-- The fixed browser-like header dict set in `GenericScraper.__init__`. -/
def defaultHeaders : List (String × String) :=
  [("User-Agent", "Mozilla/5.0 (Windows NT 10.0; Win64; x64) AppleWebKit/537.36 (KHTML, like Gecko) Chrome/114.0.0.0 Safari/537.36")]

/-- The attributes of a `GenericScraper` instance. -/
structure GenericScraper where
  base_url : String
  start_page : Int
  end_page : Int
  page_param : String
  link_base : String
  pagination_enabled : Bool
  headers : List (String × String)
deriving DecidableEq, Repr

/-- `GenericScraper.__init__`: strips trailing slashes from `base_url` and
`link_base`, stores the rest verbatim, and installs the fixed headers. -/
def GenericScraper.init (base_url : String) (start_page end_page : Int)
    (page_param link_base : String) (pagination_enabled : Bool) : GenericScraper :=
  { base_url := rstripChar base_url '/'
    start_page := start_page
    end_page := end_page
    page_param := page_param
    link_base := rstripChar link_base '/'
    pagination_enabled := pagination_enabled
    headers := defaultHeaders }

/-! ## Pager (the page loop of scrape_listing_data) -/

/-- The page-number sequence of `scrape_listing_data`: the inclusive range
`start_page .. end_page` when pagination is enabled, a single `None` page
otherwise. -/
def pageList (s : GenericScraper) : List (Option Int) :=
  if s.pagination_enabled then
    (intRange s.start_page (s.end_page + 1)).map some
  else [none]

/-- The URL requested for one page of the loop: the bare base URL for the
`None` page, otherwise base URL ++ page query parameter ++ page number. -/
def pageUrl (s : GenericScraper) : Option Int → String
  | none => s.base_url
  | some n => s.base_url ++ s.page_param ++ toString n

/-- All URLs requested by the listing loop, in order. -/
def pageUrls (s : GenericScraper) : List String :=
  (pageList s).map (pageUrl s)

/-! ## Field Extractor (the per-selector body of scrape_listing_data) -/

/-- The per-field extraction of `scrape_listing_data`: collect the `href`
attribute of each match when the selector contains `[href]`, else the `src`
attribute when it contains `[src]`, else the stripped text content. -/
def extractField (soup : Soup) (selector : String) : List (Option String) :=
  let elements := soup.select selector
  if strContains selector "[href]" then
    elements.map (fun el => el.get "href")
  else if strContains selector "[src]" then
    elements.map (fun el => el.get "src")
  else
    elements.map (fun el => some el.getText)

/-- The `raw_data` dict built for one page: one entry per field selector,
in insertion order. -/
def extractRaw (soup : Soup) (field_selectors : List (String × String)) :
    List (String × List (Option String)) :=
  field_selectors.map (fun kv => (kv.1, extractField soup kv.2))

/-! ## Listing Scraper accumulation -/

/-- The cumulative state of `scrape_listing_data`: the `field_data` dict
plus the truncation warnings printed so far (identified by page number). -/
structure ScrapeAcc where
  fields : List (String × List (Option String))
  warnings : List (Option Int)
deriving DecidableEq, Repr

/-- The body of the page loop of `scrape_listing_data` after a successful
fetch: extract raw data, take the minimum sequence length (`ValueError` on
an empty selector map), warn when some sequence is longer, and extend every
accumulated field by the first `min_len` extracted values. -/
def scrapeStep (field_selectors : List (String × String)) (acc : ScrapeAcc)
    (page_num : Option Int) (soup : Soup) : Except PyError ScrapeAcc :=
  let raw := extractRaw soup field_selectors
  match listMin (raw.map (fun kv => kv.2.length)) with
  | .error e => .error e
  | .ok min_len =>
    .ok { fields := List.zipWith (fun a r => (a.1, a.2 ++ r.2.take min_len)) acc.fields raw
          warnings :=
            if raw.any (fun kv => kv.2.length != min_len) then acc.warnings ++ [page_num]
            else acc.warnings }

/-- The page loop of `scrape_listing_data`, also recording the URLs
requested before returning or raising: a failed fetch skips the page, a
raised `ValueError` aborts the loop at that page. -/
def scrapeLoop (s : GenericScraper) (fetch : String → Option Soup)
    (field_selectors : List (String × String)) :
    List (Option Int) → ScrapeAcc → List String × Except PyError ScrapeAcc
  | [], acc => ([], .ok acc)
  | p :: ps, acc =>
    match fetch (pageUrl s p) with
    | none =>
      let rest := scrapeLoop s fetch field_selectors ps acc
      (pageUrl s p :: rest.1, rest.2)
    | some soup =>
      match scrapeStep field_selectors acc p soup with
      | .error e => ([pageUrl s p], .error e)
      | .ok acc2 =>
        let rest := scrapeLoop s fetch field_selectors ps acc2
        (pageUrl s p :: rest.1, rest.2)

/-- `GenericScraper.scrape_listing_data`: run the page loop from the empty
per-field accumulator and return the accumulated record set. -/
def scrape_listing_data (s : GenericScraper) (fetch : String → Option Soup)
    (field_selectors : List (String × String)) : Except PyError ScrapeAcc :=
  (scrapeLoop s fetch field_selectors (pageList s)
    { fields := field_selectors.map (fun kv => (kv.1, [])), warnings := [] }).2

/-- The URLs requested while scraping (the `Requesting:` log lines). -/
def scrapeRequests (s : GenericScraper) (fetch : String → Option Soup)
    (field_selectors : List (String × String)) : List String :=
  (scrapeLoop s fetch field_selectors (pageList s)
    { fields := field_selectors.map (fun kv => (kv.1, [])), warnings := [] }).1

/-! ## DataFrame (the pandas surface the scraper uses) -/

/-- A pandas DataFrame, modelled columnarly: named columns of optional
string cells (a `none` cell is a Python `None` value). -/
structure DataFrame where
  cols : List (String × List (Option String))
deriving DecidableEq, Repr

/-- `GenericScraper.create_dataframe`: wrap the scraped dict as a table. -/
def create_dataframe (data : List (String × List (Option String))) : DataFrame :=
  ⟨data⟩

/-- Lookup of a named column in the column list. -/
def DataFrame.getColAux (name : String) :
    List (String × List (Option String)) → Option (List (Option String))
  | [] => none
  | c :: cs => if c.1 == name then some c.2 else DataFrame.getColAux name cs

/-- Column read `df[name]`: the column values, or none for a missing key. -/
def DataFrame.getCol (df : DataFrame) (name : String) :
    Option (List (Option String)) :=
  DataFrame.getColAux name df.cols

/-- Replacement of the named column in the column list (column names are
unique in a pandas frame); a missing column is appended on the right. -/
def DataFrame.setColAux (name : String) (vals : List (Option String)) :
    List (String × List (Option String)) → List (String × List (Option String))
  | [] => [(name, vals)]
  | c :: cs =>
    if c.1 == name then (c.1, vals) :: cs
    else c :: DataFrame.setColAux name vals cs

/-- Column write `df[name] = vals`: replaces an existing column in place,
otherwise appends a new column on the right. -/
def DataFrame.setCol (df : DataFrame) (name : String)
    (vals : List (Option String)) : DataFrame :=
  ⟨DataFrame.setColAux name vals df.cols⟩

/-- `len(df)`: the row count, read off the first column. -/
def DataFrame.numRows (df : DataFrame) : Nat :=
  match df.cols with
  | [] => 0
  | c :: _ => c.2.length

/-! ## Enricher -/

/-- The detail-page URL resolution in `get_value_from_product_page`: the
link itself when it starts with `http`, else `link_base` prepended. -/
def full_url_of (s : GenericScraper) (url : String) : String :=
  if strStartsWith url "http" then url else s.link_base ++ url

/-- The value taken from a matched tag: the requested attribute when one is
given, else the stripped text content. -/
def tagValue (tag : Tag) (attr : Option String) : Option String :=
  match attr with
  | some a => tag.get a
  | none => some tag.getText

/-- The selector loop of `get_value_from_product_page`: try each selector
in order with `select_one` and return the value of the first that matches. -/
def first_selector_match (soup : Soup) : List String → Option String → Option String
  | [], _ => none
  | sel :: rest, attr =>
    match soup.select_one sel with
    | some tag => tagValue tag attr
    | none => first_selector_match soup rest attr

/-- `GenericScraper.get_value_from_product_page`: resolve the URL, fetch
the detail page (none on failure), and take the first selector match. -/
def get_value_from_product_page (s : GenericScraper) (fetch : String → Option Soup)
    (url : String) (selectors : List String) (attr : Option String) : Option String :=
  match fetch (full_url_of s url) with
  | none => none
  | some soup => first_selector_match soup selectors attr

/-- The per-cell body of the `apply` in `enrich_dataframe_column_from_pages`:
a `None` link cell raises `AttributeError` from `url.startswith`, a string
cell yields the detail-page value. -/
def enrichCell (s : GenericScraper) (fetch : String → Option Soup)
    (selectors : List String) (attr : Option String) (cell : Option String) :
    Except PyError (Option String) :=
  match cell with
  | none => .error (.attributeError "NoneType object has no attribute startswith")
  | some url => .ok (get_value_from_product_page s fetch url selectors attr)

/-- The row-by-row `apply` over the link column: sequential, aborting at
the first raised exception. -/
def enrichCells (s : GenericScraper) (fetch : String → Option Soup)
    (selectors : List String) (attr : Option String) :
    List (Option String) → Except PyError (List (Option String))
  | [] => .ok []
  | cell :: rest =>
    match enrichCell s fetch selectors attr cell with
    | .error e => .error e
    | .ok v =>
      match enrichCells s fetch selectors attr rest with
      | .error e => .error e
      | .ok vs => .ok (v :: vs)

/-- `GenericScraper.enrich_dataframe_column_from_pages`: read the link
column (`KeyError` when absent), compute one value per row in row order,
and write them into the target column by position. -/
def enrich_dataframe_column_from_pages (s : GenericScraper)
    (fetch : String → Option Soup) (df : DataFrame) (column_name : String)
    (selectors : List String) (attr : Option String) (link_column : String) :
    Except PyError DataFrame :=
  match df.getCol link_column with
  | none => .error (.keyError link_column)
  | some links =>
    match enrichCells s fetch selectors attr links with
    | .error e => .error e
    | .ok vals => .ok (df.setCol column_name vals)

/-! ## Page Fetcher (request_page) with its observable actions -/

/-- The observable actions of `request_page`: the outgoing GET request with
its headers, and the politeness sleep (in seconds). -/
inductive FetchEvent where
  | getReq (url : String) (headers : List (String × String))
  | sleep (seconds : Nat)
deriving DecidableEq, Repr

/-- Whether an event is the outgoing GET request. -/
def FetchEvent.isGet : FetchEvent → Bool
  | .getReq _ _ => true
  | .sleep _ => false

/-- The transport under `requests.get`: none models a raised network error
or timeout, some gives the response status code and parsed body. -/
def Transport : Type := String → Option (Nat × Soup)

/-- `response.raise_for_status()` raises exactly for 4xx and 5xx codes. -/
def raise_for_status_errors (status : Nat) : Bool :=
  decide (400 ≤ status ∧ status < 600)

/-- `GenericScraper.request_page`: one GET with the instance headers; on a
transport error or an error status the exception is caught and None is
returned; only the success path sleeps one second before returning the
parsed page. -/
def request_page (s : GenericScraper) (net : Transport) (url : String) :
    Option Soup × List FetchEvent :=
  match net url with
  | none => (none, [.getReq url s.headers])
  | some (status, body) =>
    if raise_for_status_errors status then (none, [.getReq url s.headers])
    else (some body, [.getReq url s.headers, .sleep 1])

/-! ## Save strategies -/

/-- The saver variants `get_saver` can construct. -/
inductive SaverKind where
  | csv
  | json
  | xml
deriving DecidableEq, Repr

/-- `main.get_saver`: map the configured strategy name to a saver, raising
`ValueError` on any unsupported name. -/
def get_saver (strategy : String) : Except PyError SaverKind :=
  if strategy == "csv" then .ok .csv
  else if strategy == "json" then .ok .json
  else if strategy == "xml" then .ok .xml
  else .error (.valueError ("Unsupported save strategy: " ++ strategy))

/-- A wall-clock instant as `datetime.now()` exposes it to `strftime`. -/
structure Timestamp where
  year : Nat
  month : Nat
  day : Nat
  hour : Nat
  minute : Nat
  second : Nat
deriving DecidableEq, Repr

/-- The decimal digit character of `d` for `d < 10`. -/
def digitCharOf (d : Nat) : Char :=
  if d = 0 then '0'
  else if d = 1 then '1'
  else if d = 2 then '2'
  else if d = 3 then '3'
  else if d = 4 then '4'
  else if d = 5 then '5'
  else if d = 6 then '6'
  else if d = 7 then '7'
  else if d = 8 then '8'
  else '9'

/-- Decimal rendering of a natural number, fuelled for structural
recursion (the fuel is the number itself, which suffices). -/
def toDecimalAux : Nat → Nat → List Char
  | 0, n => [digitCharOf n]
  | fuel + 1, n =>
    if n < 10 then [digitCharOf n]
    else toDecimalAux fuel (n / 10) ++ [digitCharOf (n % 10)]

/-- Decimal rendering of a natural number as characters. -/
def toDecimal (n : Nat) : List Char := toDecimalAux n n

/-- Zero-padded decimal rendering of width `w`, as `strftime` pads fields. -/
def padZero (w : Nat) (n : Nat) : List Char :=
  List.replicate (w - (toDecimal n).length) '0' ++ toDecimal n

/-- The `_timestamp` method shared by the file strategies: `strftime` with
year, month, day, an underscore, hour, minute - all zero padded, truncated
to minute granularity. -/
def timestampYmdHM (t : Timestamp) : String :=
  String.mk (padZero 4 t.year ++ padZero 2 t.month ++ padZero 2 t.day ++
    ['_'] ++ padZero 2 t.hour ++ padZero 2 t.minute)

/-- `os.path.dirname`: everything before the final path separator. -/
def dirname (p : String) : String :=
  String.mk ((((p.data.reverse).dropWhile (fun c => c != '/')).drop 1).reverse)

/-- The file-system effect of one save call: the file path written and the
directory passed to `os.makedirs`. -/
structure SaveEffect where
  path : String
  created_dir : String
deriving DecidableEq, Repr

/-- `CsvStrategy.save`: write under `outputs/csv`, after creating the
directory component of the path. -/
def CsvStrategy.save (df : DataFrame) (name : String) (t : Timestamp) : SaveEffect :=
  let path := "outputs/csv/" ++ name ++ "_" ++ timestampYmdHM t ++ ".csv"
  { path := path, created_dir := dirname path }

/-- `JsonStrategy.save`: write under `outputs/json`, after creating the
directory component of the path. -/
def JsonStrategy.save (df : DataFrame) (name : String) (t : Timestamp) : SaveEffect :=
  let path := "outputs/json/" ++ name ++ "_" ++ timestampYmdHM t ++ ".json"
  { path := path, created_dir := dirname path }

/-- `XmlStrategy.save`: write under `outputs/xml`, after creating the
directory component of the path. -/
def XmlStrategy.save (df : DataFrame) (name : String) (t : Timestamp) : SaveEffect :=
  let path := "outputs/xml/" ++ name ++ "_" ++ timestampYmdHM t ++ ".xml"
  { path := path, created_dir := dirname path }

/-- The filename pattern exactly as the specification words it: the name,
an underscore, a contiguous 12-digit YYYYMMDDHHmm timestamp, and the
extension. -/
def specFilenameYYYYMMDDHHmm (name ext : String) (t : Timestamp) : String :=
  name ++ "_" ++
    String.mk (padZero 4 t.year ++ padZero 2 t.month ++ padZero 2 t.day ++
      padZero 2 t.hour ++ padZero 2 t.minute) ++ "." ++ ext

/-- The filename pattern the code actually produces: the name, an
underscore, the date digits, an underscore, the time digits, and the
extension. -/
def specFilenameYYYYMMDD_HHMM (name ext : String) (t : Timestamp) : String :=
  name ++ "_" ++
    String.mk (padZero 4 t.year ++ padZero 2 t.month ++ padZero 2 t.day) ++ "_" ++
    String.mk (padZero 2 t.hour ++ padZero 2 t.minute) ++ "." ++ ext

/-! ## main.py -/

/-- The configuration keys main.py reads from the YAML document. -/
structure AppConfig where
  base_url : String
  start_page : Int
  end_page : Int
  link_base : String
  pagination : Bool
  field_selectors : List (String × String)
  enrich : Bool
  enrich_column : String
  enrich_selectors : List String
  save_strategy : String
  output_name : String

/-- The scraper main.py constructs from the configuration (page_param is
left at its default). -/
def scraperOf (config : AppConfig) : GenericScraper :=
  GenericScraper.init config.base_url config.start_page config.end_page
    "?page=" config.link_base config.pagination

/-- The detail-page URLs requested during enrichment: one request per row,
in row order, stopping at the first `None` link cell (which raises before
its request is made). -/
def enrichRequests (s : GenericScraper) (links : List (Option String)) : List String :=
  ((links.takeWhile (fun c => c.isSome)).filterMap id).map (full_url_of s)

/-- An observable event of one `main` run: an outgoing page request, a
completed save, or the exception that aborted the run. -/
inductive MainEvent where
  | request (url : String)
  | saved (format : SaverKind) (eff : SaveEffect)
  | fatal (e : PyError)
deriving DecidableEq, Repr

/-- Dispatch of `saver.save(df, name)` over the selected strategy. -/
def runSaver (kind : SaverKind) (df : DataFrame) (name : String)
    (t : Timestamp) : SaveEffect :=
  match kind with
  | .csv => CsvStrategy.save df name t
  | .json => JsonStrategy.save df name t
  | .xml => XmlStrategy.save df name t

/-- The event trace of `main`: scrape the listing (requesting every page
until an exception, if any), optionally enrich (requesting one detail page
per row until an exception, if any), then select the saver - raising on an
unsupported strategy name - and finally save. -/
def mainTrace (config : AppConfig) (fetch : String → Option Soup)
    (t : Timestamp) : List MainEvent :=
  let scraper := scraperOf config
  let reqs := (scrapeRequests scraper fetch config.field_selectors).map MainEvent.request
  match scrape_listing_data scraper fetch config.field_selectors with
  | .error e => reqs ++ [.fatal e]
  | .ok res =>
    let df := create_dataframe res.fields
    if config.enrich then
      let links := (df.getCol "link").getD []
      let ereqs := (enrichRequests scraper links).map MainEvent.request
      match enrich_dataframe_column_from_pages scraper fetch df
          config.enrich_column config.enrich_selectors none "link" with
      | .error e => reqs ++ ereqs ++ [.fatal e]
      | .ok df2 =>
        match get_saver config.save_strategy with
        | .error e => reqs ++ ereqs ++ [.fatal e]
        | .ok kind => reqs ++ ereqs ++ [.saved kind (runSaver kind df2 config.output_name t)]
    else
      match get_saver config.save_strategy with
      | .error e => reqs ++ [.fatal e]
      | .ok kind => reqs ++ [.saved kind (runSaver kind df config.output_name t)]

/-! ## Concrete fixtures used by witnesses and counterexamples -/

/-- A parsed page with no matches for any selector. -/
def soupEmpty : Soup := fun _ => []

/-- A text-only tag. -/
def mkTag (txt : String) : Tag := ⟨[], txt⟩

/-- An anchor tag carrying an href attribute. -/
def mkLink (u : String) : Tag := ⟨[("href", u)], "click"⟩

def s3w : GenericScraper := GenericScraper.init "http://x" 2 4 "?page=" "" true

def s3e : GenericScraper := GenericScraper.init "http://x" 5 2 "?page=" "" true

def s3n : GenericScraper := GenericScraper.init "http://x/" 7 9 "?page=" "" false

def soup4w : Soup := fun sel =>
  if sel = "a.item[href]" then [mkLink "u1", mkTag "no href here"]
  else if sel = "img.pic[src]" then [⟨[("src", "im1")], "alt"⟩]
  else []

def fs1w : List (String × String) := [("title", "h2"), ("name", "p"), ("link", "a.x[href]")]

def soup1w : Soup := fun sel =>
  if sel = "h2" then [mkTag "t1", mkTag "t2", mkTag "t3", mkTag "t4", mkTag "t5"]
  else if sel = "p" then [mkTag "n1", mkTag "n2", mkTag "n3", mkTag "n4", mkTag "n5"]
  else if sel = "a.x[href]" then [mkLink "u1", mkLink "u2", mkLink "u3"]
  else []

def acc1w : ScrapeAcc := ⟨[("title", []), ("name", []), ("link", [])], []⟩

def s2w : GenericScraper := GenericScraper.init "http://x" 1 1 "?page=" "http://base/" true

def soup2w : Soup := fun sel =>
  if sel = "selB" then [mkTag " valB "]
  else if sel = "selC" then [mkTag "valC"]
  else []

def fetch2w : String → Option Soup := fun u =>
  if u = "http://d/1" then some soup2w else none

def df2w : DataFrame := ⟨[("link", [some "http://d/1"])]⟩

def s5w : GenericScraper := GenericScraper.init "http://x" 1 1 "?page=" "http://h" true

def df5w : DataFrame := ⟨[("link", [some "/a", some "/b"]), ("title", [some "A", some "B"])]⟩

def fetchNone : String → Option Soup := fun _ => none

def df10w : DataFrame := ⟨[("link", [some "/l1", none])]⟩

def s6w : GenericScraper := GenericScraper.init "http://x" 1 1 "?page=" "" false

def fetch6w : String → Option Soup := fun _ => some soupEmpty

def config7w : AppConfig :=
  { base_url := "http://x/list"
    start_page := 1
    end_page := 1
    link_base := ""
    pagination := false
    field_selectors := [("title", "h2")]
    enrich := false
    enrich_column := "content"
    enrich_selectors := []
    save_strategy := "parquet"
    output_name := "run" }

def t0 : Timestamp := ⟨2026, 10, 12, 15, 30, 0⟩

def t0s : Timestamp := ⟨2026, 10, 12, 15, 30, 59⟩

def s8w : GenericScraper := GenericScraper.init "http://x" 1 1 "?page=" "" true

def net500 : Transport := fun _ => some (500, soupEmpty)

def net200 : Transport := fun _ => some (200, soupEmpty)

def df0 : DataFrame := ⟨[]⟩

/-- Decidable equality for `Except`, so that concrete runs can be checked
by `decide`. -/
instance {ε α : Type} [DecidableEq ε] [DecidableEq α] : DecidableEq (Except ε α) := fun a b =>
  match a, b with
  | .error e, .error f =>
    if h : e = f then isTrue (by rw [h]) else isFalse (fun hc => h (by injection hc))
  | .error _, .ok _ => isFalse (fun hc => Except.noConfusion hc)
  | .ok _, .error _ => isFalse (fun hc => Except.noConfusion hc)
  | .ok x, .ok y =>
    if h : x = y then isTrue (by rw [h]) else isFalse (fun hc => h (by injection hc))

/-! ## Helper lemmas -/

theorem mem_intRange (a b p : Int) : p ∈ intRange a b ↔ a ≤ p ∧ p < b := by
  simp only [intRange, List.mem_map, List.mem_range]
  constructor
  · rintro ⟨i, hi, rfl⟩; omega
  · rintro ⟨h1, h2⟩; exact ⟨(p - a).toNat, by omega, by omega⟩

theorem intRange_pairwise (a b : Int) : (intRange a b).Pairwise (· < ·) := by
  unfold intRange
  refine List.Pairwise.map _ (fun i j h => ?_) (List.pairwise_lt_range _)
  omega

theorem intRange_eq_nil {a b : Int} (h : b ≤ a) : intRange a b = [] := by
  have : (b - a).toNat = 0 := by omega
  simp [intRange, this]

/-- C3: with pagination disabled the Pager yields exactly the scraper's
base URL once, whatever the page range is; with pagination enabled it
yields `base_url ++ page_param ++ p` for every `p` in the inclusive range
`start_page .. end_page`, in strictly ascending order, and an empty range
(`end_page < start_page`) yields the empty sequence. -/
theorem pager_urls (s : GenericScraper) :
    (s.pagination_enabled = false → pageUrls s = [s.base_url]) ∧
    (s.pagination_enabled = true →
      pageUrls s = (intRange s.start_page (s.end_page + 1)).map
          (fun p => s.base_url ++ s.page_param ++ toString p) ∧
      (∀ p : Int, p ∈ intRange s.start_page (s.end_page + 1) ↔
          s.start_page ≤ p ∧ p ≤ s.end_page) ∧
      (intRange s.start_page (s.end_page + 1)).Pairwise (· < ·) ∧
      (s.end_page < s.start_page → pageUrls s = [])) := by
  constructor
  · intro h
    simp [pageUrls, pageList, h, pageUrl]
  · intro h
    refine ⟨?_, ?_, intRange_pairwise _ _, ?_⟩
    · simp only [pageUrls, pageList, h, if_pos, List.map_map]
      rfl
    · intro p
      rw [mem_intRange]
      omega
    · intro hlt
      simp [pageUrls, pageList, h, intRange_eq_nil (by omega : s.end_page + 1 ≤ s.start_page)]

/-- Witness for C3: the Pager evaluated on concrete configurations - an
ascending three-page range, an empty range, and pagination disabled. -/
theorem pager_urls_witness :
    pageUrls s3w = (intRange s3w.start_page (s3w.end_page + 1)).map
        (fun p => s3w.base_url ++ s3w.page_param ++ toString p) ∧
    pageUrls s3w = ["http://x?page=2", "http://x?page=3", "http://x?page=4"] ∧
    pageUrls s3e = [] ∧
    pageUrls s3n = [s3n.base_url] := by
  refine ⟨((pager_urls s3w).2 (by decide)).1, by decide,
    ((pager_urls s3e).2 (by decide)).2.2.2 (by decide),
    (pager_urls s3n).1 (by decide)⟩

/-- C4: the Field Extractor returns one value sequence per selector key; a
selector containing the href marker collects the href attribute of every
matched tag (never the text), an src marker collects the src attribute, any
other selector collects the trimmed text; a tag without the targeted
attribute yields none rather than an error, and a selector with zero
matches yields the empty sequence rather than an error. -/
theorem field_extractor_attrs (soup : Soup) (fs : List (String × String)) (sel : String) :
    (extractRaw soup fs).map Prod.fst = fs.map Prod.fst ∧
    (strContains sel "[href]" = true →
      extractField soup sel = (soup.select sel).map (fun el => el.get "href")) ∧
    (strContains sel "[href]" = false → strContains sel "[src]" = true →
      extractField soup sel = (soup.select sel).map (fun el => el.get "src")) ∧
    (strContains sel "[href]" = false → strContains sel "[src]" = false →
      extractField soup sel = (soup.select sel).map (fun el => some el.getText)) ∧
    (∀ el : Tag, (∀ kv ∈ el.attrs, kv.1 ≠ "href") → el.get "href" = none) ∧
    (∀ el : Tag, (∀ kv ∈ el.attrs, kv.1 ≠ "src") → el.get "src" = none) ∧
    (soup.select sel = [] → extractField soup sel = []) := by
  refine ⟨?_, ?_, ?_, ?_, ?_, ?_, ?_⟩
  · simp [extractRaw, List.map_map]
  · intro h; simp [extractField, h]
  · intro h1 h2; simp [extractField, h1, h2]
  · intro h1 h2; simp [extractField, h1, h2]
  · intro el h
    rw [Tag.get]
    rw [List.find?_eq_none.mpr (fun kv hkv => by simpa using h kv hkv)]
    rfl
  · intro el h
    rw [Tag.get]
    rw [List.find?_eq_none.mpr (fun kv hkv => by simpa using h kv hkv)]
    rfl
  · intro h; simp [extractField, h]

/-- Witness for C4: concrete extraction - an href selector yields the
attribute values (none for the tag lacking the attribute, and never the
text content), an unmatched selector yields the empty sequence, and the
keys are kept. -/
theorem field_extractor_attrs_witness :
    strContains "a.item[href]" "[href]" = true ∧
    extractField soup4w "a.item[href]" = [some "u1", none] ∧
    extractField soup4w "h2.title" = [] ∧
    (extractRaw soup4w [("link", "a.item[href]"), ("title", "h2.title")]).map Prod.fst
      = ["link", "title"] := by
  refine ⟨by decide, ?_, ?_, ?_⟩
  · rw [(field_extractor_attrs soup4w [] "a.item[href]").2.1 (by decide)]
    decide
  · exact (field_extractor_attrs soup4w [] "h2.title").2.2.2.2.2.2 (by decide)
  · rw [(field_extractor_attrs soup4w [("link", "a.item[href]"), ("title", "h2.title")] "x").1]
    decide

theorem foldl_min_le (xs : List Nat) (x : Nat) :
    ∀ y ∈ x :: xs, xs.foldl Nat.min x ≤ y := by
  induction xs generalizing x with
  | nil =>
    intro y hy
    simp only [List.foldl_nil]
    simp at hy
    omega
  | cons a as ih =>
    intro y hy
    simp only [List.foldl_cons]
    rcases List.mem_cons.mp hy with rfl | hy' 
    · have h1 := ih (Nat.min y a) (Nat.min y a) (List.mem_cons_self _ _)
      have h2 : Nat.min y a ≤ y := Nat.min_le_left _ _
      omega
    · rcases List.mem_cons.mp hy' with rfl | hy''
      · have h1 := ih (Nat.min x y) (Nat.min x y) (List.mem_cons_self _ _)
        have h2 : Nat.min x y ≤ y := Nat.min_le_right _ _
        omega
      · exact ih (Nat.min x a) y (List.mem_cons_of_mem _ hy'')

theorem foldl_min_mem (xs : List Nat) (x : Nat) : xs.foldl Nat.min x ∈ x :: xs := by
  induction xs generalizing x with
  | nil => simp
  | cons a as ih =>
    simp only [List.foldl_cons]
    rcases List.mem_cons.mp (ih (Nat.min x a)) with h1 | h1
    · have h2 : Nat.min x a = x ∨ Nat.min x a = a := by
        rcases Nat.le_total x a with h3 | h3
        · exact Or.inl (Nat.min_eq_left h3)
        · exact Or.inr (Nat.min_eq_right h3)
      rcases h2 with h2 | h2
      · rw [h1, h2]; exact List.mem_cons_self _ _
      · rw [h1, h2]; exact List.mem_cons_of_mem _ (List.mem_cons_self _ _)
    · exact List.mem_cons_of_mem _ (List.mem_cons_of_mem _ h1)

theorem zipWith_extend_spec (m : Nat) (A R : List (String × List (Option String)))
    (hlen : A.length = R.length)
    (hmin : ∀ r ∈ R, m ≤ r.2.length) :
    (List.zipWith (fun a r => (a.1, a.2 ++ r.2.take m)) A R).map (fun kv => kv.2.length)
        = A.map (fun kv => kv.2.length + m) ∧
    (List.zipWith (fun a r => (a.1, a.2 ++ r.2.take m)) A R).map Prod.fst = A.map Prod.fst := by
  induction A generalizing R with
  | nil => simp
  | cons a as ih =>
    cases R with
    | nil => simp at hlen
    | cons r rs =>
      have hm := hmin r (List.mem_cons_self _ _)
      have ihs := ih rs (by simpa using hlen) (fun r' hr' => hmin r' (List.mem_cons_of_mem _ hr'))
      constructor
      · simp only [List.zipWith_cons_cons, List.map_cons, ihs.1, List.length_append,
          List.length_take, Nat.min_eq_left hm]
      · simp only [List.zipWith_cons_cons, List.map_cons, ihs.2]

theorem scrapeStep_eq (fs : List (String × String)) (acc : ScrapeAcc)
    (p : Option Int) (soup : Soup) (kv0 : String × List (Option String))
    (raw' : List (String × List (Option String)))
    (hr : extractRaw soup fs = kv0 :: raw') :
    scrapeStep fs acc p soup = .ok
      { fields := List.zipWith
          (fun a r => (a.1, a.2 ++ r.2.take ((raw'.map (fun kv => kv.2.length)).foldl Nat.min kv0.2.length)))
          acc.fields (kv0 :: raw')
        warnings :=
          if (kv0 :: raw').any (fun kv =>
              kv.2.length != (raw'.map (fun kv => kv.2.length)).foldl Nat.min kv0.2.length) then
            acc.warnings ++ [p]
          else acc.warnings } := by
  simp only [scrapeStep, hr, List.map_cons, listMin]

/-- C1: on every successfully fetched page with a nonempty field selector
map, the Listing Scraper computes the minimum of the extracted sequence
lengths, appends exactly that many values of every field to the cumulative
record set (dropping trailing unmatched values), and emits a truncation
warning exactly when some sequence is longer. -/
theorem listing_truncation (fs : List (String × String)) (acc : ScrapeAcc)
    (p : Option Int) (soup : Soup)
    (hfs : fs ≠ [])
    (hacc : acc.fields.length = fs.length) :
    ∃ m acc',
      listMin ((extractRaw soup fs).map (fun kv => kv.2.length)) = .ok m ∧
      m ∈ (extractRaw soup fs).map (fun kv => kv.2.length) ∧
      (∀ L ∈ (extractRaw soup fs).map (fun kv => kv.2.length), m ≤ L) ∧
      scrapeStep fs acc p soup = .ok acc' ∧
      acc'.fields.map Prod.fst = acc.fields.map Prod.fst ∧
      acc'.fields.map (fun kv => kv.2.length) = acc.fields.map (fun kv => kv.2.length + m) ∧
      ((∃ kv ∈ extractRaw soup fs, m < kv.2.length) → acc'.warnings = acc.warnings ++ [p]) ∧
      ((∀ kv ∈ extractRaw soup fs, kv.2.length = m) → acc'.warnings = acc.warnings) := by
  have hraw : extractRaw soup fs ≠ [] := by
    cases fs with
    | nil => exact absurd rfl hfs
    | cons f fs' => simp [extractRaw]
  obtain ⟨kv0, raw', hr⟩ := List.exists_cons_of_ne_nil hraw
  set m := (raw'.map (fun kv => kv.2.length)).foldl Nat.min kv0.2.length with hm
  have hlens : (extractRaw soup fs).map (fun kv => kv.2.length)
      = kv0.2.length :: raw'.map (fun kv => kv.2.length) := by rw [hr, List.map_cons]
  have hle : ∀ L ∈ (extractRaw soup fs).map (fun kv => kv.2.length), m ≤ L := by
    rw [hlens]; exact foldl_min_le _ _
  have hmem : m ∈ (extractRaw soup fs).map (fun kv => kv.2.length) := by
    rw [hlens]; exact foldl_min_mem _ _
  have hminr : ∀ r ∈ extractRaw soup fs, m ≤ r.2.length := by
    intro r hrm
    exact hle r.2.length (List.mem_map.mpr ⟨r, hrm, rfl⟩)
  have hlenAR : acc.fields.length = (extractRaw soup fs).length := by
    rw [hacc]; simp [extractRaw]
  have hzip := zipWith_extend_spec m acc.fields (extractRaw soup fs) hlenAR hminr
  refine ⟨m, _, ?_, hmem, hle, scrapeStep_eq fs acc p soup kv0 raw' hr, ?_, ?_, ?_, ?_⟩
  · rw [hlens]; rfl
  · have := hzip.2; rw [hr] at this; exact this
  · have := hzip.1; rw [hr] at this; exact this
  · intro ⟨kv, hkv, hlt⟩
    have hany : (kv0 :: raw').any (fun kv => kv.2.length != m) = true := by
      refine List.any_eq_true.mpr ⟨kv, hr ▸ hkv, ?_⟩
      exact bne_iff_ne.mpr (by omega)
    simp only [hany, if_true]
  · intro hall
    have hany : (kv0 :: raw').any (fun kv => kv.2.length != m) = false := by
      refine List.any_eq_false.mpr ?_
      intro kv hkv
      simp only [bne_iff_ne, ne_eq, not_not]
      exact hall kv (hr ▸ hkv)
    simp [hany]

/-- Witness for C1: a page whose three fields extract sequences of lengths
5, 5 and 3 contributes exactly 3 rows per field and one truncation
warning. -/
theorem listing_truncation_witness :
    fs1w ≠ [] ∧
    acc1w.fields.length = fs1w.length ∧
    (extractRaw soup1w fs1w).map (fun kv => kv.2.length) = [5, 5, 3] ∧
    scrapeStep fs1w acc1w (some 1) soup1w = .ok
      { fields := [("title", [some "t1", some "t2", some "t3"]),
                   ("name", [some "n1", some "n2", some "n3"]),
                   ("link", [some "u1", some "u2", some "u3"])]
        warnings := [some 1] } ∧
    (∃ m acc',
      listMin ((extractRaw soup1w fs1w).map (fun kv => kv.2.length)) = .ok m ∧
      m ∈ (extractRaw soup1w fs1w).map (fun kv => kv.2.length) ∧
      (∀ L ∈ (extractRaw soup1w fs1w).map (fun kv => kv.2.length), m ≤ L) ∧
      scrapeStep fs1w acc1w (some 1) soup1w = .ok acc' ∧
      acc'.fields.map Prod.fst = acc1w.fields.map Prod.fst ∧
      acc'.fields.map (fun kv => kv.2.length) = acc1w.fields.map (fun kv => kv.2.length + m) ∧
      ((∃ kv ∈ extractRaw soup1w fs1w, m < kv.2.length) →
        acc'.warnings = acc1w.warnings ++ [some 1]) ∧
      ((∀ kv ∈ extractRaw soup1w fs1w, kv.2.length = m) →
        acc'.warnings = acc1w.warnings)) := by
  refine ⟨by decide, by decide, by decide, by decide,
    listing_truncation fs1w acc1w (some 1) soup1w (by decide) (by decide)⟩

theorem find?_append {α : Type} (p : α → Bool) (l₁ l₂ : List α) :
    (l₁ ++ l₂).find? p = (l₁.find? p).or (l₂.find? p) := by
  induction l₁ with
  | nil => simp
  | cons a l ih =>
    cases ha : p a with
    | true => simp [List.find?_cons, ha]
    | false => simp [List.find?_cons, ha, ih]

theorem first_selector_match_eq_find (soup : Soup) (sels : List String) (attr : Option String) :
    first_selector_match soup sels attr =
      (sels.find? (fun sel => !(soup.select sel).isEmpty)).bind
        (fun sel => (soup.select sel).head?.bind (fun tag => tagValue tag attr)) := by
  induction sels with
  | nil => rfl
  | cons sel rest ih =>
    cases h : soup.select sel with
    | nil =>
      simp only [first_selector_match, Soup.select_one, h, List.head?_nil, List.find?_cons,
        List.isEmpty_nil, Bool.not_true]
      exact ih
    | cons t ts =>
      simp only [first_selector_match, Soup.select_one, h, List.head?_cons, List.find?_cons,
        List.isEmpty_cons, Bool.not_false, Option.some_bind]

theorem enrichCells_map_some (s : GenericScraper) (fetch : String → Option Soup)
    (selectors : List String) (attr : Option String) (us : List String) :
    enrichCells s fetch selectors attr (us.map some)
      = .ok (us.map (fun u => get_value_from_product_page s fetch u selectors attr)) := by
  induction us with
  | nil => rfl
  | cons u us ih => simp only [List.map_cons, enrichCells, enrichCell, ih]

theorem enrichCells_with_none (s : GenericScraper) (fetch : String → Option Soup)
    (selectors : List String) (attr : Option String) (links : List (Option String))
    (h : none ∈ links) :
    enrichCells s fetch selectors attr links
      = .error (.attributeError "NoneType object has no attribute startswith") := by
  induction links with
  | nil => simp at h
  | cons c cs ih =>
    cases c with
    | none => rfl
    | some u =>
      have h' : none ∈ cs := by
        rcases List.mem_cons.mp h with h1 | h1
        · exact absurd h1 (by simp)
        · exact h1
      simp only [enrichCells, enrichCell, ih h']


theorem getColAux_setColAux_self (name : String) (vals : List (Option String))
    (l : List (String × List (Option String))) :
    DataFrame.getColAux name (DataFrame.setColAux name vals l) = some vals := by
  induction l with
  | nil => simp [DataFrame.setColAux, DataFrame.getColAux]
  | cons c cs ih =>
    cases hc : (c.1 == name) with
    | true => simp [DataFrame.setColAux, DataFrame.getColAux, hc]
    | false => simp [DataFrame.setColAux, DataFrame.getColAux, hc, ih]

theorem getCol_setCol_self (df : DataFrame) (n : String) (vals : List (Option String)) :
    (df.setCol n vals).getCol n = some vals :=
  getColAux_setColAux_self n vals df.cols

theorem getColAux_setColAux_ne (n m : String) (vals : List (Option String))
    (l : List (String × List (Option String))) (hmn : m ≠ n) :
    DataFrame.getColAux m (DataFrame.setColAux n vals l) = DataFrame.getColAux m l := by
  induction l with
  | nil =>
    have hnm : (n == m) = false := beq_eq_false_iff_ne.mpr (fun hh => hmn hh.symm)
    simp [DataFrame.setColAux, DataFrame.getColAux, hnm]
  | cons c cs ih =>
    cases hc : (c.1 == n) with
    | true =>
      have hceq : c.1 = n := by simpa using hc
      have hm : (c.1 == m) = false := by
        refine beq_eq_false_iff_ne.mpr ?_
        rw [hceq]
        exact fun hh => hmn hh.symm
      simp [DataFrame.setColAux, DataFrame.getColAux, hc, hm]
    | false =>
      cases hm : (c.1 == m) with
      | true => simp [DataFrame.setColAux, DataFrame.getColAux, hc, hm]
      | false => simp [DataFrame.setColAux, DataFrame.getColAux, hc, hm, ih]

theorem getCol_setCol_ne (df : DataFrame) (n m : String) (vals : List (Option String))
    (hmn : m ≠ n) :
    (df.setCol n vals).getCol m = df.getCol m :=
  getColAux_setColAux_ne n m vals df.cols hmn

theorem setColAux_mem (n : String) (vals : List (Option String))
    (l : List (String × List (Option String))) :
    ∀ c' ∈ DataFrame.setColAux n vals l, c' ∈ l ∨ c'.2 = vals := by
  induction l with
  | nil =>
    intro c' hc'
    simp only [DataFrame.setColAux, List.mem_singleton] at hc'
    right; rw [hc']
  | cons c cs ih =>
    intro c' hc'
    cases hc : (c.1 == n) with
    | true =>
      simp only [DataFrame.setColAux, hc, if_true] at hc'
      rcases List.mem_cons.mp hc' with h1 | h1
      · right; rw [h1]
      · left; exact List.mem_cons_of_mem _ h1
    | false =>
      simp only [DataFrame.setColAux, hc, if_false] at hc'
      rcases List.mem_cons.mp hc' with h1 | h1
      · left; rw [h1]; exact List.mem_cons_self _ _
      · rcases ih c' h1 with h2 | h2
        · left; exact List.mem_cons_of_mem _ h2
        · right; exact h2

theorem setCol_mem (df : DataFrame) (n : String) (vals : List (Option String)) :
    ∀ c' ∈ (df.setCol n vals).cols, c' ∈ df.cols ∨ c'.2 = vals :=
  setColAux_mem n vals df.cols

theorem numRows_setCol (df : DataFrame) (n : String) (vals : List (Option String))
    (hne : df.cols ≠ []) (hv : vals.length = df.numRows) :
    (df.setCol n vals).numRows = df.numRows := by
  rcases hcols : df.cols with _ | ⟨c, cs⟩
  · exact absurd hcols hne
  · have h1 : df.numRows = c.2.length := by
      unfold DataFrame.numRows
      rw [hcols]
    unfold DataFrame.setCol
    rw [hcols, h1]
    cases hc : (c.1 == n) with
    | true => simp [DataFrame.setColAux, DataFrame.numRows, hc, hv, hcols]
    | false => simp [DataFrame.setColAux, DataFrame.numRows, hc]

theorem getColAux_some_mem (n : String) (v : List (Option String)) :
    ∀ (l : List (String × List (Option String))), DataFrame.getColAux n l = some v →
      ∃ c ∈ l, c.2 = v := by
  intro l
  induction l with
  | nil => intro h; simp [DataFrame.getColAux] at h
  | cons c cs ih =>
    intro h
    cases hc : (c.1 == n) with
    | true =>
      simp [DataFrame.getColAux, hc] at h
      exact ⟨c, List.mem_cons_self _ _, h⟩
    | false =>
      simp [DataFrame.getColAux, hc] at h
      obtain ⟨c', hc', he⟩ := ih h
      exact ⟨c', List.mem_cons_of_mem _ hc', he⟩

theorem getCol_some_mem (df : DataFrame) (n : String) (l : List (Option String))
    (h : df.getCol n = some l) : ∃ c ∈ df.cols, c.2 = l :=
  getColAux_some_mem n l df.cols h

/-- C2: for every row, enrichment writes the value of the first selector in
the ordered list that matches the fetched detail page (earlier selectors
take priority, later matches are ignored), and null when the detail fetch
fails or no selector matches. -/
theorem enrich_first_selector (s : GenericScraper) (fetch : String → Option Soup)
    (df : DataFrame) (column_name : String) (selectors : List String)
    (attr : Option String) (link_column : String) (us : List String)
    (hlink : df.getCol link_column = some (us.map some)) :
    ∃ df',
      enrich_dataframe_column_from_pages s fetch df column_name selectors attr link_column
        = .ok df' ∧
      df'.getCol column_name
        = some (us.map (fun u => get_value_from_product_page s fetch u selectors attr)) ∧
      (∀ u soup, fetch (full_url_of s u) = some soup →
        get_value_from_product_page s fetch u selectors attr =
          (selectors.find? (fun sel => !(soup.select sel).isEmpty)).bind
            (fun sel => (soup.select sel).head?.bind (fun tag => tagValue tag attr))) ∧
      (∀ u, fetch (full_url_of s u) = none →
        get_value_from_product_page s fetch u selectors attr = none) ∧
      (∀ u soup, fetch (full_url_of s u) = some soup →
        (∀ sel ∈ selectors, soup.select sel = []) →
        get_value_from_product_page s fetch u selectors attr = none) := by
  refine ⟨df.setCol column_name
    (us.map (fun u => get_value_from_product_page s fetch u selectors attr)),
    ?_, getCol_setCol_self _ _ _, ?_, ?_, ?_⟩
  · simp only [enrich_dataframe_column_from_pages, hlink, enrichCells_map_some]
  · intro u soup hf
    simp only [get_value_from_product_page, hf]
    exact first_selector_match_eq_find soup selectors attr
  · intro u hf
    simp only [get_value_from_product_page, hf]
  · intro u soup hf hall
    simp only [get_value_from_product_page, hf, first_selector_match_eq_find]
    rw [List.find?_eq_none.mpr (fun sel hs => by rw [hall sel hs]; decide)]
    rfl

/-- Witness for C2: on a concrete detail page the second selector is the
first to match - its stripped text is written - and the whole enrichment
run produces exactly that cell. -/
theorem enrich_first_selector_witness :
    df2w.getCol "link" = some (["http://d/1"].map some) ∧
    get_value_from_product_page s2w fetch2w "http://d/1" ["selA", "selB", "selC"] none
      = some "valB" ∧
    (∃ df',
      enrich_dataframe_column_from_pages s2w fetch2w df2w "price" ["selA", "selB", "selC"]
          none "link" = .ok df' ∧
      df'.getCol "price"
        = some (["http://d/1"].map
            (fun u => get_value_from_product_page s2w fetch2w u ["selA", "selB", "selC"] none)) ∧
      (∀ u soup, fetch2w (full_url_of s2w u) = some soup →
        get_value_from_product_page s2w fetch2w u ["selA", "selB", "selC"] none =
          (["selA", "selB", "selC"].find? (fun sel => !(soup.select sel).isEmpty)).bind
            (fun sel => (soup.select sel).head?.bind (fun tag => tagValue tag none))) ∧
      (∀ u, fetch2w (full_url_of s2w u) = none →
        get_value_from_product_page s2w fetch2w u ["selA", "selB", "selC"] none = none) ∧
      (∀ u soup, fetch2w (full_url_of s2w u) = some soup →
        (∀ sel ∈ ["selA", "selB", "selC"], soup.select sel = []) →
        get_value_from_product_page s2w fetch2w u ["selA", "selB", "selC"] none = none)) := by
  refine ⟨by decide, by decide,
    enrich_first_selector s2w fetch2w df2w "price" ["selA", "selB", "selC"] none "link"
      ["http://d/1"] (by decide)⟩

/-- C5: enrichment preserves the row count and row order of the record
set, leaves every column other than the target column unchanged, and
writes the target column by row position. -/
theorem enrich_preserves_frame (s : GenericScraper) (fetch : String → Option Soup)
    (df : DataFrame) (column_name : String) (selectors : List String)
    (attr : Option String) (link_column : String) (us : List String)
    (hlink : df.getCol link_column = some (us.map some))
    (hwf : ∀ c ∈ df.cols, c.2.length = df.numRows) :
    ∃ df',
      enrich_dataframe_column_from_pages s fetch df column_name selectors attr link_column
        = .ok df' ∧
      df'.numRows = df.numRows ∧
      (∀ c ∈ df'.cols, c.2.length = df.numRows) ∧
      (∀ name, name ≠ column_name → df'.getCol name = df.getCol name) ∧
      df'.getCol column_name
        = some (us.map (fun u => get_value_from_product_page s fetch u selectors attr)) := by
  have hvlen : (us.map (fun u => get_value_from_product_page s fetch u selectors attr)).length
      = df.numRows := by
    obtain ⟨c, hcm, hce⟩ := getCol_some_mem df link_column (us.map some) hlink
    have hc2 := hwf c hcm
    rw [hce] at hc2
    simpa using hc2
  have hne : df.cols ≠ [] := by
    obtain ⟨c, hcm, _⟩ := getCol_some_mem df link_column (us.map some) hlink
    intro hnil
    rw [hnil] at hcm
    simp at hcm
  refine ⟨df.setCol column_name
    (us.map (fun u => get_value_from_product_page s fetch u selectors attr)),
    ?_, numRows_setCol df column_name _ hne hvlen, ?_,
    (fun name hname => getCol_setCol_ne df column_name name _ hname),
    getCol_setCol_self _ _ _⟩
  · simp only [enrich_dataframe_column_from_pages, hlink, enrichCells_map_some]
  · intro c hc
    rcases setCol_mem df column_name _ c hc with h1 | h1
    · exact hwf c h1
    · rw [h1, hvlen]

/-- Witness for C5: a concrete two-row frame is enriched (all detail
fetches failing, so both cells are null) with its row count, row order and
untouched columns preserved. -/
theorem enrich_preserves_frame_witness :
    df5w.getCol "link" = some (["/a", "/b"].map some) ∧
    (∀ c ∈ df5w.cols, c.2.length = df5w.numRows) ∧
    (∃ df',
      enrich_dataframe_column_from_pages s5w fetchNone df5w "content" ["article p"]
          none "link" = .ok df' ∧
      df'.numRows = df5w.numRows ∧
      (∀ c ∈ df'.cols, c.2.length = df5w.numRows) ∧
      (∀ name, name ≠ "content" → df'.getCol name = df5w.getCol name) ∧
      df'.getCol "content"
        = some (["/a", "/b"].map
            (fun u => get_value_from_product_page s5w fetchNone u ["article p"] none))) := by
  refine ⟨by decide, by decide,
    enrich_preserves_frame s5w fetchNone df5w "content" ["article p"] none "link"
      ["/a", "/b"] (by decide) (by decide)⟩

/-- C10: the detail-page URL is the link value itself when it starts with
http, and otherwise the link base (with trailing slashes removed at
construction) prepended; and a null link cell is outside the domain of the
per-row function - it raises `AttributeError` and aborts the enrichment
rather than yielding the null-cell result. -/
theorem link_resolution_domain (base_url link_base : String) (sp ep : Int)
    (pp : String) (pe : Bool) (fetch : String → Option Soup) (df : DataFrame)
    (column_name : String) (selectors : List String) (attr : Option String)
    (link_column : String) (links : List (Option String)) :
    (∀ u : String, full_url_of (GenericScraper.init base_url sp ep pp link_base pe) u
        = if strStartsWith u "http" then u else rstripChar link_base '/' ++ u) ∧
    (df.getCol link_column = some links → none ∈ links →
      enrich_dataframe_column_from_pages (GenericScraper.init base_url sp ep pp link_base pe)
          fetch df column_name selectors attr link_column
        = .error (.attributeError "NoneType object has no attribute startswith")) := by
  constructor
  · intro u; rfl
  · intro hl hn
    simp only [enrich_dataframe_column_from_pages, hl,
      enrichCells_with_none _ _ _ _ _ hn]

/-- Witness for C10: a concrete frame whose link column holds one string
and one null; the string resolves against the stripped link base, and the
null cell makes the enrichment raise rather than return. -/
theorem link_resolution_domain_witness :
    df10w.getCol "link" = some [some "/l1", none] ∧
    none ∈ [some "/l1", none] ∧
    full_url_of (GenericScraper.init "http://x" 1 1 "?page=" "http://base/" true) "/l1"
      = (if strStartsWith "/l1" "http" then "/l1" else rstripChar "http://base/" '/' ++ "/l1") ∧
    enrich_dataframe_column_from_pages
        (GenericScraper.init "http://x" 1 1 "?page=" "http://base/" true)
        fetchNone df10w "price" ["p"] none "link"
      = .error (.attributeError "NoneType object has no attribute startswith") := by
  refine ⟨by decide, by decide,
    (link_resolution_domain "http://x" "http://base/" 1 1 "?page=" true fetchNone df10w
      "price" ["p"] none "link" [some "/l1", none]).1 "/l1",
    (link_resolution_domain "http://x" "http://base/" 1 1 "?page=" true fetchNone df10w
      "price" ["p"] none "link" [some "/l1", none]).2 (by decide) (by decide)⟩

/-- Counterexample for C6: with an empty field selector map and a page that
fetches successfully, the scrape raises `ValueError` from taking the
minimum over an empty collection - it does not contribute zero rows and
complete. -/
theorem empty_selectors_counterexample :
    scrape_listing_data s6w fetch6w []
      = .error (.valueError "min() arg is an empty sequence") := by
  rfl

/-- C6 amended: the min-length computation is not guarded - whenever the
field selector map is empty and at least one page fetch succeeds, the
scrape aborts with the `ValueError` raised by `min` over an empty
collection. -/
theorem empty_selectors_raises (s : GenericScraper) (fetch : String → Option Soup)
    (h : ∃ p ∈ pageList s, (fetch (pageUrl s p)).isSome = true) :
    scrape_listing_data s fetch []
      = .error (.valueError "min() arg is an empty sequence") := by
  unfold scrape_listing_data
  suffices hs : ∀ (pages : List (Option Int)) (acc : ScrapeAcc),
      (∃ p ∈ pages, (fetch (pageUrl s p)).isSome = true) →
      (scrapeLoop s fetch [] pages acc).2
        = .error (.valueError "min() arg is an empty sequence") by
    exact hs (pageList s) _ h
  intro pages
  induction pages with
  | nil =>
    intro acc hx
    simp at hx
  | cons q qs ih =>
    intro acc hx
    cases hq : fetch (pageUrl s q) with
    | none =>
      have hx' : ∃ p ∈ qs, (fetch (pageUrl s p)).isSome = true := by
        rcases hx with ⟨p, hp, hps⟩
        rcases List.mem_cons.mp hp with rfl | hp'
        · rw [hq] at hps; simp at hps
        · exact ⟨p, hp', hps⟩
      simp only [scrapeLoop, hq]
      exact ih acc hx'
    | some soup =>
      simp only [scrapeLoop, hq]
      rfl

/-- Witness for C6 (amended): the single non-paginated page fetches
successfully, and the scrape with an empty selector map indeed raises. -/
theorem empty_selectors_raises_witness :
    (∃ p ∈ pageList s6w, (fetch6w (pageUrl s6w p)).isSome = true) ∧
    scrape_listing_data s6w fetch6w []
      = .error (.valueError "min() arg is an empty sequence") :=
  ⟨⟨none, by decide, rfl⟩, empty_selectors_raises s6w fetch6w ⟨none, by decide, rfl⟩⟩

theorem scrapeStep_ok (fs : List (String × String)) (acc : ScrapeAcc)
    (p : Option Int) (soup : Soup) (hfs : fs ≠ []) :
    ∃ acc2, scrapeStep fs acc p soup = .ok acc2 := by
  cases fs with
  | nil => exact absurd rfl hfs
  | cons f fs' => exact ⟨_, scrapeStep_eq (f :: fs') acc p soup _ _ rfl⟩

theorem scrapeLoop_ok (s : GenericScraper) (fetch : String → Option Soup)
    (fs : List (String × String)) (hfs : fs ≠ []) :
    ∀ (pages : List (Option Int)) (acc : ScrapeAcc),
      (∃ r, (scrapeLoop s fetch fs pages acc).2 = .ok r) ∧
      (scrapeLoop s fetch fs pages acc).1 = pages.map (pageUrl s) := by
  intro pages
  induction pages with
  | nil => intro acc; exact ⟨⟨acc, rfl⟩, rfl⟩
  | cons q qs ih =>
    intro acc
    cases hq : fetch (pageUrl s q) with
    | none =>
      constructor
      · obtain ⟨⟨r, hr⟩, _⟩ := ih acc
        refine ⟨r, ?_⟩
        simp only [scrapeLoop, hq]
        exact hr
      · simp only [scrapeLoop, hq, List.map_cons]
        rw [(ih acc).2]
    | some soup =>
      obtain ⟨acc2, hacc2⟩ := scrapeStep_ok fs acc q soup hfs
      constructor
      · obtain ⟨⟨r, hr⟩, _⟩ := ih acc2
        refine ⟨r, ?_⟩
        simp only [scrapeLoop, hq, hacc2]
        exact hr
      · simp only [scrapeLoop, hq, hacc2, List.map_cons]
        rw [(ih acc2).2]

/-- Counterexample for C7: with an unsupported save-strategy name, the
listing page is requested (network activity) before the fatal
unsupported-strategy error - the run does not abort before any network
activity. -/
theorem saver_check_after_network_counterexample :
    mainTrace config7w fetchNone t0
      = [.request "http://x/list",
         .fatal (.valueError "Unsupported save strategy: parquet")] ∧
    (mainTrace config7w fetchNone t0).head? = some (.request "http://x/list") := by
  refine ⟨by decide, by decide⟩

/-- C7 amended: an unsupported save-strategy name aborts the run with a
fatal `ValueError` and nothing is saved, but the saver is selected only
after scraping completes: the trace is all page requests followed by the
error, so every configured page is fetched before the error is reported. -/
theorem saver_check_after_network (config : AppConfig) (fetch : String → Option Soup)
    (t : Timestamp)
    (h1 : config.save_strategy ≠ "csv") (h2 : config.save_strategy ≠ "json")
    (h3 : config.save_strategy ≠ "xml")
    (hfs : config.field_selectors ≠ []) (he : config.enrich = false) :
    mainTrace config fetch t
      = (pageUrls (scraperOf config)).map MainEvent.request
        ++ [.fatal (.valueError ("Unsupported save strategy: " ++ config.save_strategy))] ∧
    (∀ k eff, MainEvent.saved k eff ∉ mainTrace config fetch t) := by
  have hb1 : (config.save_strategy == "csv") = false := beq_eq_false_iff_ne.mpr h1
  have hb2 : (config.save_strategy == "json") = false := beq_eq_false_iff_ne.mpr h2
  have hb3 : (config.save_strategy == "xml") = false := beq_eq_false_iff_ne.mpr h3
  obtain ⟨⟨r, hr⟩, hreq⟩ := scrapeLoop_ok (scraperOf config) fetch config.field_selectors hfs
    (pageList (scraperOf config))
    { fields := config.field_selectors.map (fun kv => (kv.1, [])), warnings := [] }
  have htrace : mainTrace config fetch t
      = (pageUrls (scraperOf config)).map MainEvent.request
        ++ [.fatal (.valueError ("Unsupported save strategy: " ++ config.save_strategy))] := by
    unfold mainTrace scrapeRequests scrape_listing_data
    simp only [hreq, hr, he, Bool.false_eq_true, if_false, get_saver, hb1, hb2, hb3]
    rfl
  refine ⟨htrace, ?_⟩
  intro k eff hmem
  rw [htrace] at hmem
  rcases List.mem_append.mp hmem with hm | hm
  · obtain ⟨u, _, hu⟩ := List.mem_map.mp hm
    exact MainEvent.noConfusion hu
  · simp only [List.mem_singleton] at hm
    exact MainEvent.noConfusion hm

/-- Witness for C7 (amended): the concrete unsupported-strategy run, where
the trace is exactly the one page request followed by the fatal error. -/
theorem saver_check_after_network_witness :
    config7w.save_strategy ≠ "csv" ∧ config7w.save_strategy ≠ "json" ∧
    config7w.save_strategy ≠ "xml" ∧ config7w.field_selectors ≠ [] ∧
    config7w.enrich = false ∧
    (mainTrace config7w fetch6w t0
      = (pageUrls (scraperOf config7w)).map MainEvent.request
        ++ [.fatal (.valueError ("Unsupported save strategy: " ++ config7w.save_strategy))] ∧
    (∀ k eff, MainEvent.saved k eff ∉ mainTrace config7w fetch6w t0)) :=
  ⟨by decide, by decide, by decide, by decide, by decide,
    saver_check_after_network config7w fetch6w t0 (by decide) (by decide) (by decide)
      (by decide) (by decide)⟩

/-- Counterexample for C8: a failing request (HTTP 500 status) is not
followed by the politeness delay - no sleep event occurs - contradicting
"the fixed politeness delay regardless of whether the request succeeds or
fails". -/
theorem fetch_delay_counterexample :
    (request_page s8w net500 "http://x/p").1 = none ∧
    (request_page s8w net500 "http://x/p").2 = [.getReq "http://x/p" defaultHeaders] ∧
    FetchEvent.sleep 1 ∉ (request_page s8w net500 "http://x/p").2 := by
  refine ⟨rfl, by decide, by decide⟩

/-- C8 amended: every invocation sends exactly one GET request with the
instance's fixed headers; a transport error or a 4xx/5xx status (exactly
the statuses `raise_for_status` raises for) yields a non-fatal None result
with no delay, and the fixed one-second politeness delay follows the
request exactly when it succeeds. -/
theorem fetch_single_get_delay_on_success (s : GenericScraper) (net : Transport)
    (url : String) :
    (request_page s net url).2.filter FetchEvent.isGet = [.getReq url s.headers] ∧
    (net url = none →
      request_page s net url = (none, [.getReq url s.headers])) ∧
    (∀ status body, net url = some (status, body) →
      (raise_for_status_errors status = true →
        request_page s net url = (none, [.getReq url s.headers])) ∧
      (raise_for_status_errors status = false →
        request_page s net url = (some body, [.getReq url s.headers, .sleep 1])) ∧
      (FetchEvent.sleep 1 ∈ (request_page s net url).2
        ↔ raise_for_status_errors status = false)) := by
  refine ⟨?_, ?_, ?_⟩
  · cases hn : net url with
    | none => simp [request_page, hn, FetchEvent.isGet]
    | some sb =>
      obtain ⟨status, body⟩ := sb
      cases hs : raise_for_status_errors status with
      | true => simp [request_page, hn, hs, FetchEvent.isGet]
      | false => simp [request_page, hn, hs, FetchEvent.isGet]
  · intro hn
    simp [request_page, hn]
  · intro status body hn
    refine ⟨?_, ?_, ?_⟩
    · intro hs; simp [request_page, hn, hs]
    · intro hs; simp [request_page, hn, hs]
    · cases hs : raise_for_status_errors status with
      | true => simp [request_page, hn, hs]
      | false => simp [request_page, hn, hs]

/-- Witness for C8 (amended): a successful request (HTTP 200) returns the
parsed body and is followed by the one-second delay; the witness feeds the
theorem a concrete transport. -/
theorem fetch_single_get_delay_on_success_witness :
    net200 "http://x/p" = some (200, soupEmpty) ∧
    raise_for_status_errors 200 = false ∧
    request_page s8w net200 "http://x/p"
      = (some soupEmpty, [.getReq "http://x/p" s8w.headers, .sleep 1]) :=
  ⟨rfl, by decide,
    ((fetch_single_get_delay_on_success s8w net200 "http://x/p").2.2 200 soupEmpty
      rfl).2.1 (by decide)⟩

theorem dropWhile_append_of_all {α : Type} (p : α → Bool) (l₁ l₂ : List α)
    (h : ∀ a ∈ l₁, p a = true) :
    (l₁ ++ l₂).dropWhile p = l₂.dropWhile p := by
  induction l₁ with
  | nil => rfl
  | cons a l ih =>
    rw [List.cons_append, List.dropWhile_cons]
    simp only [h a (List.mem_cons_self _ _), if_true]
    exact ih (fun b hb => h b (List.mem_cons_of_mem _ hb))

theorem dirname_data (p : String) (ddata tail : List Char)
    (hp : p.data = ddata ++ '/' :: tail)
    (htail : ∀ c ∈ tail, (c != '/') = true) :
    dirname p = String.mk ddata := by
  unfold dirname
  rw [hp, List.reverse_append, List.reverse_cons, List.append_assoc, List.singleton_append]
  rw [dropWhile_append_of_all _ _ _ (fun c hc => htail c (List.mem_reverse.mp hc))]
  rw [List.dropWhile_cons]
  simp

theorem digitCharOf_not_slash (d : Nat) : (digitCharOf d != '/') = true := by
  unfold digitCharOf
  split_ifs <;> decide

theorem toDecimalAux_not_slash (fuel : Nat) :
    ∀ (n : Nat), ∀ c ∈ toDecimalAux fuel n, (c != '/') = true := by
  induction fuel with
  | zero =>
    intro n c hc
    simp only [toDecimalAux, List.mem_singleton] at hc
    rw [hc]
    exact digitCharOf_not_slash _
  | succ fuel ih =>
    intro n c hc
    simp only [toDecimalAux] at hc
    by_cases hn : n < 10
    · rw [if_pos hn] at hc
      simp only [List.mem_singleton] at hc
      rw [hc]
      exact digitCharOf_not_slash _
    · rw [if_neg hn] at hc
      rcases List.mem_append.mp hc with hc | hc
      · exact ih _ c hc
      · simp only [List.mem_singleton] at hc
        rw [hc]
        exact digitCharOf_not_slash _

theorem padZero_not_slash (w n : Nat) : ∀ c ∈ padZero w n, (c != '/') = true := by
  intro c hc
  unfold padZero toDecimal at hc
  rcases List.mem_append.mp hc with h1 | h1
  · rw [List.eq_of_mem_replicate h1]
    decide
  · exact toDecimalAux_not_slash _ _ c h1

theorem all_not_slash_append {l₁ l₂ : List Char}
    (h₁ : ∀ c ∈ l₁, (c != '/') = true) (h₂ : ∀ c ∈ l₂, (c != '/') = true) :
    ∀ c ∈ l₁ ++ l₂, (c != '/') = true := by
  intro c hc
  rcases List.mem_append.mp hc with h | h
  · exact h₁ c h
  · exact h₂ c h

theorem timestampYmdHM_not_slash (t : Timestamp) :
    ∀ c ∈ (timestampYmdHM t).data, (c != '/') = true := by
  have hu : ∀ c ∈ ['_'], (c != '/') = true := by decide
  exact all_not_slash_append
    (all_not_slash_append
      (all_not_slash_append
        (all_not_slash_append
          (all_not_slash_append (padZero_not_slash 4 t.year) (padZero_not_slash 2 t.month))
          (padZero_not_slash 2 t.day))
        hu)
      (padZero_not_slash 2 t.hour))
    (padZero_not_slash 2 t.minute)

theorem suffix_not_slash (name : String) (t : Timestamp) (ext : String)
    (hname : ∀ c ∈ name.data, (c != '/') = true)
    (hext : ∀ c ∈ ext.data, (c != '/') = true) :
    ∀ c ∈ (name ++ "_" ++ timestampYmdHM t ++ ext).data, (c != '/') = true := by
  have hu : ∀ c ∈ ("_" : String).data, (c != '/') = true := by decide
  intro c hc
  rw [String.data_append, String.data_append, String.data_append] at hc
  exact all_not_slash_append
    (all_not_slash_append (all_not_slash_append hname hu) (timestampYmdHM_not_slash t))
    hext c hc

/-- Counterexample for C9: the timestamp format `%Y%m%d_%H%M` puts an
underscore between the date and the time digits, so the written path
differs from the contiguous `YYYYMMDDHHmm` pattern of the claim at a
concrete instant. -/
theorem sink_filename_counterexample :
    (CsvStrategy.save df0 "run" t0).path = "outputs/csv/run_20261012_1530.csv" ∧
    "outputs/csv/" ++ specFilenameYYYYMMDDHHmm "run" "csv" t0
      = "outputs/csv/run_202610121530.csv" ∧
    (CsvStrategy.save df0 "run" t0).path
      ≠ "outputs/csv/" ++ specFilenameYYYYMMDDHHmm "run" "csv" t0 := by
  refine ⟨by decide, by decide, by decide⟩

/-- C9 amended: each file sink writes its record set to its fixed
per-format directory using the filename pattern name underscore YYYYMMDD
underscore HHMM dot extension, the timestamp is truncated to minute
granularity (two instants equal up to the minute give the same path), and
the directory passed to makedirs is the fixed per-format directory for
any slash-free name. -/
theorem sink_filename_formats (df : DataFrame) (name : String) (t t' : Timestamp)
    (hy : t.year = t'.year) (hmo : t.month = t'.month) (hd : t.day = t'.day)
    (hh : t.hour = t'.hour) (hmi : t.minute = t'.minute)
    (hname : ∀ c ∈ name.data, c ≠ '/') :
    (CsvStrategy.save df name t).path
      = "outputs/csv/" ++ specFilenameYYYYMMDD_HHMM name "csv" t ∧
    (JsonStrategy.save df name t).path
      = "outputs/json/" ++ specFilenameYYYYMMDD_HHMM name "json" t ∧
    (XmlStrategy.save df name t).path
      = "outputs/xml/" ++ specFilenameYYYYMMDD_HHMM name "xml" t ∧
    (CsvStrategy.save df name t).path = (CsvStrategy.save df name t').path ∧
    (JsonStrategy.save df name t).path = (JsonStrategy.save df name t').path ∧
    (XmlStrategy.save df name t).path = (XmlStrategy.save df name t').path ∧
    (CsvStrategy.save df name t).created_dir = "outputs/csv" ∧
    (JsonStrategy.save df name t).created_dir = "outputs/json" ∧
    (XmlStrategy.save df name t).created_dir = "outputs/xml" := by
  have hnameB : ∀ c ∈ name.data, (c != '/') = true :=
    fun c hc => bne_iff_ne.mpr (hname c hc)
  refine ⟨?_, ?_, ?_, ?_, ?_, ?_, ?_, ?_, ?_⟩
  · apply String.ext
    simp [CsvStrategy.save, specFilenameYYYYMMDD_HHMM, timestampYmdHM]
  · apply String.ext
    simp [JsonStrategy.save, specFilenameYYYYMMDD_HHMM, timestampYmdHM]
  · apply String.ext
    simp [XmlStrategy.save, specFilenameYYYYMMDD_HHMM, timestampYmdHM]
  · simp [CsvStrategy.save, timestampYmdHM, hy, hmo, hd, hh, hmi]
  · simp [JsonStrategy.save, timestampYmdHM, hy, hmo, hd, hh, hmi]
  · simp [XmlStrategy.save, timestampYmdHM, hy, hmo, hd, hh, hmi]
  · show dirname ("outputs/csv/" ++ name ++ "_" ++ timestampYmdHM t ++ ".csv") = "outputs/csv"
    have hsplit : ("outputs/csv/" : String).data = ("outputs/csv" : String).data ++ ['/'] := by
      decide
    have hp : ("outputs/csv/" ++ name ++ "_" ++ timestampYmdHM t ++ ".csv").data
        = ("outputs/csv" : String).data ++ '/' :: (name ++ "_" ++ timestampYmdHM t ++ ".csv").data := by
      have hassoc : "outputs/csv/" ++ name ++ "_" ++ timestampYmdHM t ++ ".csv"
          = "outputs/csv/" ++ (name ++ "_" ++ timestampYmdHM t ++ ".csv") := by
        simp [String.append_assoc]
      rw [hassoc, String.data_append, hsplit, List.append_assoc, List.singleton_append]
    exact (dirname_data _ _ _ hp
      (suffix_not_slash name t ".csv" hnameB (by decide))).trans (by decide)
  · show dirname ("outputs/json/" ++ name ++ "_" ++ timestampYmdHM t ++ ".json") = "outputs/json"
    have hsplit : ("outputs/json/" : String).data = ("outputs/json" : String).data ++ ['/'] := by
      decide
    have hp : ("outputs/json/" ++ name ++ "_" ++ timestampYmdHM t ++ ".json").data
        = ("outputs/json" : String).data ++ '/' :: (name ++ "_" ++ timestampYmdHM t ++ ".json").data := by
      have hassoc : "outputs/json/" ++ name ++ "_" ++ timestampYmdHM t ++ ".json"
          = "outputs/json/" ++ (name ++ "_" ++ timestampYmdHM t ++ ".json") := by
        simp [String.append_assoc]
      rw [hassoc, String.data_append, hsplit, List.append_assoc, List.singleton_append]
    exact (dirname_data _ _ _ hp
      (suffix_not_slash name t ".json" hnameB (by decide))).trans (by decide)
  · show dirname ("outputs/xml/" ++ name ++ "_" ++ timestampYmdHM t ++ ".xml") = "outputs/xml"
    have hsplit : ("outputs/xml/" : String).data = ("outputs/xml" : String).data ++ ['/'] := by
      decide
    have hp : ("outputs/xml/" ++ name ++ "_" ++ timestampYmdHM t ++ ".xml").data
        = ("outputs/xml" : String).data ++ '/' :: (name ++ "_" ++ timestampYmdHM t ++ ".xml").data := by
      have hassoc : "outputs/xml/" ++ name ++ "_" ++ timestampYmdHM t ++ ".xml"
          = "outputs/xml/" ++ (name ++ "_" ++ timestampYmdHM t ++ ".xml") := by
        simp [String.append_assoc]
      rw [hassoc, String.data_append, hsplit, List.append_assoc, List.singleton_append]
    exact (dirname_data _ _ _ hp
      (suffix_not_slash name t ".xml" hnameB (by decide))).trans (by decide)

/-- Witness for C9 (amended): concrete paths for a run named run at a
concrete instant - the second is ignored, the filename matches the
underscore-separated pattern, and the created directory is the per-format
one. -/
theorem sink_filename_formats_witness :
    (∀ c ∈ ("run" : String).data, c ≠ '/') ∧
    (CsvStrategy.save df0 "run" t0).path = (CsvStrategy.save df0 "run" t0s).path ∧
    (CsvStrategy.save df0 "run" t0).created_dir = "outputs/csv" ∧
    (XmlStrategy.save df0 "run" t0).path
      = "outputs/xml/" ++ specFilenameYYYYMMDD_HHMM "run" "xml" t0 ∧
    (CsvStrategy.save df0 "run" t0).path = "outputs/csv/run_20261012_1530.csv" := by
  have h := sink_filename_formats df0 "run" t0 t0s rfl rfl rfl rfl rfl (by decide)
  exact ⟨by decide, h.2.2.2.1, h.2.2.2.2.2.2.1, h.2.2.1, by decide⟩
